import Mathlib

/-!
Shallow embedding of `src/MnistBenchmark/Include/NeuralNetwork.h`.

The header defines a fixed-topology three-layer feed-forward neural network:
a struct `NeuralNetwork<NumInputNodes, NumHiddenNodes, NumOutputNodes>`
holding a learning rate and two dense weight matrices, a pure forward pass
`Query`, and an in-place training step `Train` (forward pass, output error,
backpropagated hidden error, then the two weight updates).

`float` values are modelled as real numbers; `std::exp` as `Real.exp`.
Accumulation loops (`for ... += ...`) are modelled as left folds over
`List.finRange`, and `std::transform_reduce(seq, xs, ys, 0.0f, plus, multiplies)`
as a left fold of addition over the element-wise products of the two ranges.
The nested weight-update loops mutate one matrix cell per inner iteration;
they are modelled as nested folds of single-cell updates.
-/

/-- The sigmoid activation `1 / (1 + std::exp(-value))` used by both
`Query` (NeuralNetwork.h lines 65, 80) and `Train` (lines 109, 132). -/
noncomputable def sigmoid (x : ℝ) : ℝ := 1 / (1 + Real.exp (-x))

/-- `std::transform_reduce(std::execution::seq, xs, ys, 0.0f, std::plus<>(), std::multiplies<>())`
over two equal-length ranges: sum of pairwise products
(NeuralNetwork.h lines 95-102 and 117-124). -/
def transformReduce (xs ys : List ℝ) : ℝ :=
  (List.zipWith (fun a b => a * b) xs ys).foldl (fun a b => a + b) 0

/-- The struct `NeuralNetwork<NumInputNodes, NumHiddenNodes, NumOutputNodes>`
(NeuralNetwork.h lines 14-47): a learning rate, the hidden-layer weight matrix
`inputWeights[NumHiddenNodes][NumInputNodes]`, and the output-layer weight
matrix `outputWeights[NumOutputNodes][NumHiddenNodes]`. The three dimensions
are compile-time template parameters, modelled as type indices. -/
structure NeuralNetwork (numInputNodes numHiddenNodes numOutputNodes : ℕ) where
  learningRate : ℝ
  inputWeights : Fin numHiddenNodes → Fin numInputNodes → ℝ
  outputWeights : Fin numOutputNodes → Fin numHiddenNodes → ℝ

variable {numInputNodes numHiddenNodes numOutputNodes : ℕ}

/-- The raw hidden values accumulated by `Query`'s first loop nest
(NeuralNetwork.h lines 53-61): `hiddenValues[i] += input[j] * inputWeights[i][j]`
starting from a zero-initialized array. -/
def queryHiddenRaw (neuralNetwork : NeuralNetwork numInputNodes numHiddenNodes numOutputNodes)
    (input : Fin numInputNodes → ℝ) (i : Fin numHiddenNodes) : ℝ :=
  (List.finRange numInputNodes).foldl
    (fun acc j => acc + input j * neuralNetwork.inputWeights i j) 0

/-- The hidden values of `Query` after the in-place sigmoid pass
(NeuralNetwork.h lines 63-66). -/
noncomputable def queryHidden
    (neuralNetwork : NeuralNetwork numInputNodes numHiddenNodes numOutputNodes)
    (input : Fin numInputNodes → ℝ) (i : Fin numHiddenNodes) : ℝ :=
  sigmoid (queryHiddenRaw neuralNetwork input i)

/-- The raw output values accumulated by `Query`'s second loop nest
(NeuralNetwork.h lines 68-76):
`outputValues[i] += hiddenValues[j] * outputWeights[i][j]`. -/
noncomputable def queryOutputRaw
    (neuralNetwork : NeuralNetwork numInputNodes numHiddenNodes numOutputNodes)
    (input : Fin numInputNodes → ℝ) (i : Fin numOutputNodes) : ℝ :=
  (List.finRange numHiddenNodes).foldl
    (fun acc j => acc + queryHidden neuralNetwork input j * neuralNetwork.outputWeights i j) 0

/-- `Query` (NeuralNetwork.h lines 49-84): the full forward pass, returning the
output array after the final in-place sigmoid pass (lines 78-81). -/
noncomputable def Query
    (neuralNetwork : NeuralNetwork numInputNodes numHiddenNodes numOutputNodes)
    (input : Fin numInputNodes → ℝ) (i : Fin numOutputNodes) : ℝ :=
  sigmoid (queryOutputRaw neuralNetwork input i)

/-- The hidden values computed at the start of `Train`
(NeuralNetwork.h lines 91-110): row-wise `transform_reduce` of the input with
`inputWeights[i]`, then an in-place sigmoid `transform`. -/
noncomputable def trainHidden
    (neuralNetwork : NeuralNetwork numInputNodes numHiddenNodes numOutputNodes)
    (input : Fin numInputNodes → ℝ) (i : Fin numHiddenNodes) : ℝ :=
  sigmoid (transformReduce (List.ofFn input) (List.ofFn (neuralNetwork.inputWeights i)))

/-- The output values computed by `Train`'s forward pass
(NeuralNetwork.h lines 112-133): row-wise `transform_reduce` of the hidden
values with `outputWeights[i]`, then an in-place sigmoid `transform`. -/
noncomputable def trainOutput
    (neuralNetwork : NeuralNetwork numInputNodes numHiddenNodes numOutputNodes)
    (input : Fin numInputNodes → ℝ) (i : Fin numOutputNodes) : ℝ :=
  sigmoid (transformReduce (List.ofFn (trainHidden neuralNetwork input))
    (List.ofFn (neuralNetwork.outputWeights i)))

/-- `outputErrorValues` (NeuralNetwork.h lines 135-136):
element-wise `target - outputValues` via `std::transform` with `std::minus`. -/
noncomputable def trainOutputError
    (neuralNetwork : NeuralNetwork numInputNodes numHiddenNodes numOutputNodes)
    (input : Fin numInputNodes → ℝ) (target : Fin numOutputNodes → ℝ)
    (i : Fin numOutputNodes) : ℝ :=
  target i - trainOutput neuralNetwork input i

/-- `hiddenErrorValues` (NeuralNetwork.h lines 138-145):
`hiddenErrorValues[i] += outputWeights[j][i] * outputErrorValues[j]`,
accumulated from the network's output weights as they stand at this point of
`Train`, i.e. before any weight mutation. -/
noncomputable def trainHiddenError
    (neuralNetwork : NeuralNetwork numInputNodes numHiddenNodes numOutputNodes)
    (input : Fin numInputNodes → ℝ) (target : Fin numOutputNodes → ℝ)
    (i : Fin numHiddenNodes) : ℝ :=
  (List.finRange numOutputNodes).foldl
    (fun acc j => acc + neuralNetwork.outputWeights j i
      * trainOutputError neuralNetwork input target j) 0

/-- Single-cell matrix write `w[i][j] = v`. -/
def updateCell {m n : ℕ} (w : Fin m → Fin n → ℝ) (i : Fin m) (j : Fin n) (v : ℝ) :
    Fin m → Fin n → ℝ :=
  Function.update w i (Function.update (w i) j v)

/-- A nested loop `for i { for j { w[i][j] += delta i j } }` over a whole
matrix, as in the two weight-update loop nests of `Train`
(NeuralNetwork.h lines 147-153 and 155-161). -/
def nestedAddUpdate {m n : ℕ} (w : Fin m → Fin n → ℝ) (delta : Fin m → Fin n → ℝ) :
    Fin m → Fin n → ℝ :=
  (List.finRange m).foldl
    (fun w i => (List.finRange n).foldl
      (fun w j => updateCell w i j (w i j + delta i j)) w) w

/-- The output-weight update step of `Train` (NeuralNetwork.h lines 147-153):
`outputWeights[i][j] += learningRate * (outputErrorValues[i] * outputValues[i]
* (1 - outputValues[i]) * hiddenValues[j])`, performed after the local error
arrays have been computed and before the input weights are touched. -/
noncomputable def outputWeightsStep
    (neuralNetwork : NeuralNetwork numInputNodes numHiddenNodes numOutputNodes)
    (input : Fin numInputNodes → ℝ) (target : Fin numOutputNodes → ℝ) :
    NeuralNetwork numInputNodes numHiddenNodes numOutputNodes :=
  { neuralNetwork with
    outputWeights := nestedAddUpdate neuralNetwork.outputWeights
      (fun i j => neuralNetwork.learningRate
        * (trainOutputError neuralNetwork input target i
          * trainOutput neuralNetwork input i
          * (1 - trainOutput neuralNetwork input i)
          * trainHidden neuralNetwork input j)) }

/-- The input-weight update step of `Train` (NeuralNetwork.h lines 155-161):
`inputWeights[i][j] += learningRate * (hiddenErrorValues[i] * hiddenValues[i]
* (1 - hiddenValues[i]) * input[j])`. The hidden values and hidden errors are
the local arrays computed earlier in the call, passed in unchanged. -/
noncomputable def inputWeightsStep
    (neuralNetwork : NeuralNetwork numInputNodes numHiddenNodes numOutputNodes)
    (input : Fin numInputNodes → ℝ)
    (hiddenValues hiddenErrorValues : Fin numHiddenNodes → ℝ) :
    NeuralNetwork numInputNodes numHiddenNodes numOutputNodes :=
  { neuralNetwork with
    inputWeights := nestedAddUpdate neuralNetwork.inputWeights
      (fun i j => neuralNetwork.learningRate
        * (hiddenErrorValues i * hiddenValues i * (1 - hiddenValues i) * input j)) }

/-- `Train` (NeuralNetwork.h lines 86-162): forward pass, output error, hidden
error (all computed from the incoming network), then the output-weight update,
then the input-weight update applied to the resulting state with the
previously computed local arrays. -/
noncomputable def Train
    (neuralNetwork : NeuralNetwork numInputNodes numHiddenNodes numOutputNodes)
    (input : Fin numInputNodes → ℝ) (target : Fin numOutputNodes → ℝ) :
    NeuralNetwork numInputNodes numHiddenNodes numOutputNodes :=
  inputWeightsStep (outputWeightsStep neuralNetwork input target) input
    (trainHidden neuralNetwork input)
    (trainHiddenError neuralNetwork input target)

/-- Embedding of a call site of `Query`: the network is passed by
`const` reference (NeuralNetwork.h line 50) and the body contains no store to
it, so the call returns the output array and leaves the caller's network state
as it was. -/
noncomputable def queryCall
    (neuralNetwork : NeuralNetwork numInputNodes numHiddenNodes numOutputNodes)
    (input : Fin numInputNodes → ℝ) :
    (Fin numOutputNodes → ℝ) × NeuralNetwork numInputNodes numHiddenNodes numOutputNodes :=
  (Query neuralNetwork input, neuralNetwork)

/-! Bridge lemmas: the loop-shaped definitions above equal their closed-form
sums, and the nested update loops act cell-wise. -/

lemma foldl_add_map {α : Type} (f : α → ℝ) (L : List α) (c : ℝ) :
    L.foldl (fun acc j => acc + f j) c = c + (L.map f).sum := by
  induction L generalizing c with
  | nil => simp
  | cons a t ih => simp [ih, add_assoc]

lemma foldl_add_finRange {n : ℕ} (f : Fin n → ℝ) (c : ℝ) :
    (List.finRange n).foldl (fun acc j => acc + f j) c = c + ∑ j, f j := by
  rw [foldl_add_map, Fin.sum_univ_def]

lemma foldl_add_sum (L : List ℝ) (c : ℝ) :
    L.foldl (fun a b => a + b) c = c + L.sum := by
  induction L generalizing c with
  | nil => simp
  | cons a t ih => simp [ih, add_assoc]

lemma zipWith_mul_ofFn {n : ℕ} (f g : Fin n → ℝ) :
    List.zipWith (fun a b => a * b) (List.ofFn f) (List.ofFn g)
      = List.ofFn (fun i => f i * g i) := by
  induction n with
  | zero => simp
  | succ m ih => simp [List.ofFn_succ, ih]

lemma transformReduce_ofFn {n : ℕ} (f g : Fin n → ℝ) :
    transformReduce (List.ofFn f) (List.ofFn g) = ∑ i, f i * g i := by
  rw [transformReduce, zipWith_mul_ofFn, foldl_add_sum, zero_add, Fin.sum_ofFn]

lemma innerFold_apply {m n : ℕ} (i : Fin m) (delta : Fin m → Fin n → ℝ)
    (L : List (Fin n)) (hL : L.Nodup) (w : Fin m → Fin n → ℝ)
    (a : Fin m) (b : Fin n) :
    (L.foldl (fun w j => updateCell w i j (w i j + delta i j)) w) a b
      = if a = i ∧ b ∈ L then w a b + delta a b else w a b := by
  induction L generalizing w with
  | nil => simp
  | cons j t ih =>
    have hjt : j ∉ t := (List.nodup_cons.mp hL).1
    have ht : t.Nodup := (List.nodup_cons.mp hL).2
    simp only [List.foldl_cons, ih ht]
    by_cases hai : a = i
    · subst hai
      by_cases hbt : b ∈ t
      · have hbj : b ≠ j := fun h => hjt (h ▸ hbt)
        simp [updateCell, Function.update_same, Function.update_noteq hbj,
          List.mem_cons, hbt]
      · by_cases hbj : b = j
        · subst hbj
          simp [updateCell, Function.update_same, hbt]
        · simp [updateCell, Function.update_same, Function.update_noteq hbj,
            List.mem_cons, hbt, hbj]
    · simp [updateCell, Function.update_noteq hai, hai]

lemma nestedAddUpdate_apply {m n : ℕ} (w : Fin m → Fin n → ℝ)
    (delta : Fin m → Fin n → ℝ) (a : Fin m) (b : Fin n) :
    nestedAddUpdate w delta a b = w a b + delta a b := by
  have main : ∀ (M : List (Fin m)), M.Nodup → ∀ (w : Fin m → Fin n → ℝ),
      (M.foldl (fun w i => (List.finRange n).foldl
        (fun w j => updateCell w i j (w i j + delta i j)) w) w) a b
        = if a ∈ M then w a b + delta a b else w a b := by
    intro M
    induction M with
    | nil => simp
    | cons i t ih =>
      intro hM w
      have hit : i ∉ t := (List.nodup_cons.mp hM).1
      have ht : t.Nodup := (List.nodup_cons.mp hM).2
      simp only [List.foldl_cons, ih ht]
      have hinner : ∀ (a2 : Fin m) (b2 : Fin n),
          ((List.finRange n).foldl
            (fun w j => updateCell w i j (w i j + delta i j)) w) a2 b2
            = if a2 = i then w a2 b2 + delta a2 b2 else w a2 b2 := by
        intro a2 b2
        rw [innerFold_apply i delta _ (List.nodup_finRange n) w a2 b2]
        simp [List.mem_finRange]
      by_cases hat : a ∈ t
      · have hai : a ≠ i := fun h => hit (h ▸ hat)
        simp [hinner, hai, hat]
      · by_cases hai : a = i
        · subst hai
          simp [hinner, hat]
        · simp [hinner, hai, hat]
  rw [nestedAddUpdate, main (List.finRange m) (List.nodup_finRange m) w]
  simp [List.mem_finRange]

lemma queryHiddenRaw_eq
    (neuralNetwork : NeuralNetwork numInputNodes numHiddenNodes numOutputNodes)
    (input : Fin numInputNodes → ℝ) (i : Fin numHiddenNodes) :
    queryHiddenRaw neuralNetwork input i
      = ∑ j, input j * neuralNetwork.inputWeights i j := by
  rw [queryHiddenRaw, foldl_add_finRange, zero_add]

lemma queryHidden_eq
    (neuralNetwork : NeuralNetwork numInputNodes numHiddenNodes numOutputNodes)
    (input : Fin numInputNodes → ℝ) (i : Fin numHiddenNodes) :
    queryHidden neuralNetwork input i
      = sigmoid (∑ j, input j * neuralNetwork.inputWeights i j) := by
  rw [queryHidden, queryHiddenRaw_eq]

lemma query_eq
    (neuralNetwork : NeuralNetwork numInputNodes numHiddenNodes numOutputNodes)
    (input : Fin numInputNodes → ℝ) (i : Fin numOutputNodes) :
    Query neuralNetwork input i
      = sigmoid (∑ j, sigmoid (∑ k, input k * neuralNetwork.inputWeights j k)
          * neuralNetwork.outputWeights i j) := by
  rw [Query, queryOutputRaw, foldl_add_finRange, zero_add]
  congr 1
  refine Finset.sum_congr rfl fun j _ => ?_
  rw [queryHidden_eq]

lemma trainHidden_eq
    (neuralNetwork : NeuralNetwork numInputNodes numHiddenNodes numOutputNodes)
    (input : Fin numInputNodes → ℝ) (i : Fin numHiddenNodes) :
    trainHidden neuralNetwork input i
      = sigmoid (∑ j, input j * neuralNetwork.inputWeights i j) := by
  rw [trainHidden, transformReduce_ofFn]

lemma trainOutput_eq
    (neuralNetwork : NeuralNetwork numInputNodes numHiddenNodes numOutputNodes)
    (input : Fin numInputNodes → ℝ) (i : Fin numOutputNodes) :
    trainOutput neuralNetwork input i
      = sigmoid (∑ j, trainHidden neuralNetwork input j
          * neuralNetwork.outputWeights i j) := by
  rw [trainOutput, transformReduce_ofFn]

lemma trainHiddenError_eq
    (neuralNetwork : NeuralNetwork numInputNodes numHiddenNodes numOutputNodes)
    (input : Fin numInputNodes → ℝ) (target : Fin numOutputNodes → ℝ)
    (i : Fin numHiddenNodes) :
    trainHiddenError neuralNetwork input target i
      = ∑ j, neuralNetwork.outputWeights j i
          * trainOutputError neuralNetwork input target j := by
  rw [trainHiddenError, foldl_add_finRange, zero_add]

lemma sigmoid_pos (x : ℝ) : 0 < sigmoid x := by
  rw [sigmoid]
  positivity

lemma sigmoid_lt_one (x : ℝ) : sigmoid x < 1 := by
  rw [sigmoid]
  have h : (0 : ℝ) < 1 + Real.exp (-x) := by positivity
  rw [div_lt_one h]
  linarith [Real.exp_pos (-x)]

lemma trainOutput_closed
    (neuralNetwork : NeuralNetwork numInputNodes numHiddenNodes numOutputNodes)
    (input : Fin numInputNodes → ℝ) (i : Fin numOutputNodes) :
    trainOutput neuralNetwork input i
      = sigmoid (∑ j, sigmoid (∑ k, input k * neuralNetwork.inputWeights j k)
          * neuralNetwork.outputWeights i j) := by
  rw [trainOutput_eq]
  congr 1
  refine Finset.sum_congr rfl fun j _ => ?_
  rw [trainHidden_eq]

/-- Modelled from the spec: the call-boundary shape check. In the source the
check lives in the fixed-extent `gsl::span<float, N>` parameters of `Query`
and `Train` (NeuralNetwork.h lines 51, 88-89); the GSL library that enforces
the extent at the call boundary is outside this repository. Per the spec,
a call whose input length differs from the fixed dimension must "fail fast
with a descriptive error at the call boundary (reject before performing any
arithmetic)" and must not truncate or zero-pad. -/
noncomputable def QueryChecked
    (neuralNetwork : NeuralNetwork numInputNodes numHiddenNodes numOutputNodes)
    (input : List ℝ) : Except String (Fin numOutputNodes → ℝ) :=
  if h : input.length = numInputNodes then
    Except.ok (Query neuralNetwork (fun i => input.get (Fin.cast h.symm i)))
  else Except.error "shape mismatch"

/-- Modelled from the spec: the call-boundary shape check for `Train`, as for
`QueryChecked`. Both the input and the target extents are enforced before any
arithmetic or mutation; on mismatch the network state is left untouched. -/
noncomputable def TrainChecked
    (neuralNetwork : NeuralNetwork numInputNodes numHiddenNodes numOutputNodes)
    (input target : List ℝ) :
    Except String (NeuralNetwork numInputNodes numHiddenNodes numOutputNodes) :=
  if h1 : input.length = numInputNodes then
    if h2 : target.length = numOutputNodes then
      Except.ok (Train neuralNetwork (fun i => input.get (Fin.cast h1.symm i))
        (fun o => target.get (Fin.cast h2.symm o)))
    else Except.error "shape mismatch"
  else Except.error "shape mismatch"

/-- A concrete 1-1-1 network used to instantiate theorems with hypotheses:
learning rate 1, all weights 0. -/
def nnWitness : NeuralNetwork 1 1 1 :=
  { learningRate := 1, inputWeights := fun _ _ => 0, outputWeights := fun _ _ => 0 }

/-- Claim C3: Query forward-pass correctness. For every network state and
input vector of length `numInputNodes`, the `o`-th element of the vector
returned by `Query` equals
`sigmoid (Σ_h sigmoid (Σ_i input[i] * inputWeights[h][i]) * outputWeights[o][h])`
with `sigmoid x = 1 / (1 + exp (-x))`. -/
theorem claim_C3_query_forward_pass
    (neuralNetwork : NeuralNetwork numInputNodes numHiddenNodes numOutputNodes)
    (input : Fin numInputNodes → ℝ) (o : Fin numOutputNodes) :
    Query neuralNetwork input o
      = sigmoid (∑ h, sigmoid (∑ i, input i * neuralNetwork.inputWeights h i)
          * neuralNetwork.outputWeights o h) :=
  query_eq neuralNetwork input o

/-- Claim C4: Train's internal forward pass equals Query. The hidden values
and output values computed at the start of `Train` (via
`std::generate`/`std::transform_reduce`) coincide element by element with the
hidden activations and the returned output of `Query` on the same network
state and input. -/
theorem claim_C4_train_forward_equals_query
    (neuralNetwork : NeuralNetwork numInputNodes numHiddenNodes numOutputNodes)
    (input : Fin numInputNodes → ℝ) :
    (∀ h, trainHidden neuralNetwork input h = queryHidden neuralNetwork input h)
    ∧ ∀ o, trainOutput neuralNetwork input o = Query neuralNetwork input o := by
  constructor
  · intro h
    rw [trainHidden_eq, queryHidden_eq]
  · intro o
    rw [trainOutput_closed, query_eq]

/-- Claim C5: output range. Every element of the vector returned by `Query`
lies strictly within the open interval (0, 1), because the last step applies
the sigmoid. -/
theorem claim_C5_query_output_range
    (neuralNetwork : NeuralNetwork numInputNodes numHiddenNodes numOutputNodes)
    (input : Fin numInputNodes → ℝ) (o : Fin numOutputNodes) :
    0 < Query neuralNetwork input o ∧ Query neuralNetwork input o < 1 :=
  ⟨sigmoid_pos _, sigmoid_lt_one _⟩

/-- Claim C7: Query is read-only. The network is passed to `Query` by `const`
reference and the body stores nothing into it, so after the call the weight
matrices and the learning rate are exactly the caller's values from before
the call. -/
theorem claim_C7_query_read_only
    (neuralNetwork : NeuralNetwork numInputNodes numHiddenNodes numOutputNodes)
    (input : Fin numInputNodes → ℝ) :
    (queryCall neuralNetwork input).2.inputWeights = neuralNetwork.inputWeights
    ∧ (queryCall neuralNetwork input).2.outputWeights = neuralNetwork.outputWeights
    ∧ (queryCall neuralNetwork input).2.learningRate = neuralNetwork.learningRate :=
  ⟨rfl, rfl, rfl⟩

/-- Claim C8: Train's frame. `Train` mutates only the two weight matrices:
the learning rate is unchanged, and the dimensions and matrix shapes are
fixed by the result type `NeuralNetwork numInputNodes numHiddenNodes
numOutputNodes` itself. -/
theorem claim_C8_train_frame
    (neuralNetwork : NeuralNetwork numInputNodes numHiddenNodes numOutputNodes)
    (input : Fin numInputNodes → ℝ) (target : Fin numOutputNodes → ℝ) :
    (Train neuralNetwork input target).learningRate = neuralNetwork.learningRate :=
  rfl

/-- Claim C9: determinism of inference. Two `Query` calls on the same network
state and the same input vector return identical result vectors. -/
theorem claim_C9_query_deterministic
    (nn1 nn2 : NeuralNetwork numInputNodes numHiddenNodes numOutputNodes)
    (x1 x2 : Fin numInputNodes → ℝ) (hn : nn1 = nn2) (hx : x1 = x2) :
    Query nn1 x1 = Query nn2 x2 := by
  rw [hn, hx]

/-- Witness for claim C9 at the concrete network `nnWitness` and the zero
input: both hypotheses hold by `rfl` and the theorem applies. -/
theorem claim_C9_query_deterministic_witness :
    Query nnWitness (fun _ => 0) = Query nnWitness (fun _ => 0) :=
  claim_C9_query_deterministic nnWitness nnWitness (fun _ => 0) (fun _ => 0) rfl rfl

/-- Claim C1: single-step Train update correctness. One `Train` call replaces
`outputWeights[o][h]` by its old value plus
`learningRate * outputError[o] * output[o] * (1 - output[o]) * hidden[h]`, and
`inputWeights[h][i]` by its old value plus
`learningRate * hiddenError[h] * hidden[h] * (1 - hidden[h]) * input[i]`,
where `hidden`, `output`, `outputError` and `hiddenError` are the forward-pass
and error values of the spec's training algorithm, written out in closed form. -/
theorem claim_C1_train_single_step_update
    (neuralNetwork : NeuralNetwork numInputNodes numHiddenNodes numOutputNodes)
    (input : Fin numInputNodes → ℝ) (target : Fin numOutputNodes → ℝ)
    (o : Fin numOutputNodes) (h : Fin numHiddenNodes)
    (h2 : Fin numHiddenNodes) (i : Fin numInputNodes) :
    (Train neuralNetwork input target).outputWeights o h
      = neuralNetwork.outputWeights o h
        + neuralNetwork.learningRate
          * ((target o - sigmoid (∑ j, sigmoid (∑ k, input k * neuralNetwork.inputWeights j k)
                * neuralNetwork.outputWeights o j))
            * sigmoid (∑ j, sigmoid (∑ k, input k * neuralNetwork.inputWeights j k)
                * neuralNetwork.outputWeights o j)
            * (1 - sigmoid (∑ j, sigmoid (∑ k, input k * neuralNetwork.inputWeights j k)
                * neuralNetwork.outputWeights o j))
            * sigmoid (∑ k, input k * neuralNetwork.inputWeights h k))
    ∧ (Train neuralNetwork input target).inputWeights h2 i
      = neuralNetwork.inputWeights h2 i
        + neuralNetwork.learningRate
          * ((∑ o2, neuralNetwork.outputWeights o2 h2
              * (target o2 - sigmoid (∑ j, sigmoid (∑ k, input k * neuralNetwork.inputWeights j k)
                  * neuralNetwork.outputWeights o2 j)))
            * sigmoid (∑ k, input k * neuralNetwork.inputWeights h2 k)
            * (1 - sigmoid (∑ k, input k * neuralNetwork.inputWeights h2 k))
            * input i) := by
  constructor
  · have e : (Train neuralNetwork input target).outputWeights o h
        = neuralNetwork.outputWeights o h
          + neuralNetwork.learningRate
            * (trainOutputError neuralNetwork input target o
              * trainOutput neuralNetwork input o
              * (1 - trainOutput neuralNetwork input o)
              * trainHidden neuralNetwork input h) :=
      nestedAddUpdate_apply _ _ o h
    rw [e]
    simp only [trainOutputError, trainOutput_closed, trainHidden_eq]
  · have e : (Train neuralNetwork input target).inputWeights h2 i
        = neuralNetwork.inputWeights h2 i
          + neuralNetwork.learningRate
            * (trainHiddenError neuralNetwork input target h2
              * trainHidden neuralNetwork input h2
              * (1 - trainHidden neuralNetwork input h2)
              * input i) :=
      nestedAddUpdate_apply _ _ h2 i
    rw [e, trainHiddenError_eq]
    simp only [trainOutputError, trainOutput_closed, trainHidden_eq]

/-- Claim C2: backpropagation ordering invariant. The hidden error computed
inside `Train` is `Σ_o outputWeights[o][h] * outputError[o]` taken over the
output weights of the incoming network, i.e. the values held before any
weight mutation of that call; and `Train` is exactly the output-weight update
applied first, followed by the input-weight update fed with the hidden values
and hidden errors computed from the pre-update state. -/
theorem claim_C2_hidden_error_from_preupdate_weights
    (neuralNetwork : NeuralNetwork numInputNodes numHiddenNodes numOutputNodes)
    (input : Fin numInputNodes → ℝ) (target : Fin numOutputNodes → ℝ)
    (h : Fin numHiddenNodes) :
    trainHiddenError neuralNetwork input target h
      = ∑ o, neuralNetwork.outputWeights o h
          * (target o - trainOutput neuralNetwork input o)
    ∧ Train neuralNetwork input target
      = inputWeightsStep (outputWeightsStep neuralNetwork input target) input
          (trainHidden neuralNetwork input)
          (trainHiddenError neuralNetwork input target) := by
  constructor
  · rw [trainHiddenError_eq]
    simp only [trainOutputError]
  · rfl

/-- Claim C6: shape enforcement. A `Query` or `Train` call whose input (or,
for `Train`, target) vector length differs from the fixed dimension fails
with a shape error at the call boundary, before any arithmetic, and returns
no mutated network state; nothing is truncated or zero-padded. -/
theorem claim_C6_shape_enforcement
    (neuralNetwork : NeuralNetwork numInputNodes numHiddenNodes numOutputNodes)
    (input target : List ℝ)
    (hbad : input.length ≠ numInputNodes ∨ target.length ≠ numOutputNodes) :
    TrainChecked neuralNetwork input target = Except.error "shape mismatch"
    ∧ (input.length ≠ numInputNodes →
        QueryChecked neuralNetwork input = Except.error "shape mismatch") := by
  constructor
  · rcases hbad with h1 | h2
    · rw [TrainChecked, dif_neg h1]
    · rw [TrainChecked]
      by_cases h1 : input.length = numInputNodes
      · rw [dif_pos h1, dif_neg h2]
      · rw [dif_neg h1]
  · intro hq
    rw [QueryChecked, dif_neg hq]

/-- Witness for claim C6: calling the checked boundary of `Train` and `Query`
on the concrete 1-1-1 network with an empty input rejects with the shape
error. -/
theorem claim_C6_shape_enforcement_witness :
    (([] : List ℝ).length ≠ 1 ∨ ([] : List ℝ).length ≠ 1)
    ∧ TrainChecked nnWitness [] [] = Except.error "shape mismatch"
    ∧ QueryChecked nnWitness [] = Except.error "shape mismatch" := by
  have hlen : ([] : List ℝ).length ≠ 1 := by decide
  have h := claim_C6_shape_enforcement nnWitness [] [] (Or.inl hlen)
  exact ⟨Or.inl hlen, h.1, h.2 hlen⟩

/-- Claim C10: zero-residual fixed point of `Train`. If the target equals the
output activations of `Train`'s own forward pass, then every output error,
hidden error and weight delta vanishes and the call leaves every weight
entry unchanged. -/
theorem claim_C10_zero_residual_fixed_point
    (neuralNetwork : NeuralNetwork numInputNodes numHiddenNodes numOutputNodes)
    (input : Fin numInputNodes → ℝ) (target : Fin numOutputNodes → ℝ)
    (ht : ∀ o, target o = trainOutput neuralNetwork input o) :
    (∀ o h, (Train neuralNetwork input target).outputWeights o h
      = neuralNetwork.outputWeights o h)
    ∧ ∀ h i, (Train neuralNetwork input target).inputWeights h i
      = neuralNetwork.inputWeights h i := by
  have herr : ∀ o, trainOutputError neuralNetwork input target o = 0 := by
    intro o
    rw [trainOutputError, ht o, sub_self]
  constructor
  · intro o h
    have e : (Train neuralNetwork input target).outputWeights o h
        = neuralNetwork.outputWeights o h
          + neuralNetwork.learningRate
            * (trainOutputError neuralNetwork input target o
              * trainOutput neuralNetwork input o
              * (1 - trainOutput neuralNetwork input o)
              * trainHidden neuralNetwork input h) :=
      nestedAddUpdate_apply _ _ o h
    rw [e, herr o]
    ring
  · intro h i
    have hhe : trainHiddenError neuralNetwork input target h = 0 := by
      rw [trainHiddenError_eq]
      refine Finset.sum_eq_zero fun j _ => ?_
      rw [herr j, mul_zero]
    have e : (Train neuralNetwork input target).inputWeights h i
        = neuralNetwork.inputWeights h i
          + neuralNetwork.learningRate
            * (trainHiddenError neuralNetwork input target h
              * trainHidden neuralNetwork input h
              * (1 - trainHidden neuralNetwork input h)
              * input i) :=
      nestedAddUpdate_apply _ _ h i
    rw [e, hhe]
    ring

/-- Witness for claim C10: on the all-zero-weight 1-1-1 network the forward
output is `sigmoid 0 = 1/2`, so training against the constant target `1/2`
changes no weight. -/
theorem claim_C10_zero_residual_fixed_point_witness :
    (∀ o : Fin 1, (fun _ : Fin 1 => (1 : ℝ) / 2) o
      = trainOutput nnWitness (fun _ => 0) o)
    ∧ ((∀ o h, (Train nnWitness (fun _ => 0) (fun _ : Fin 1 => (1 : ℝ) / 2)).outputWeights o h
        = nnWitness.outputWeights o h)
      ∧ ∀ h i, (Train nnWitness (fun _ => 0) (fun _ : Fin 1 => (1 : ℝ) / 2)).inputWeights h i
        = nnWitness.inputWeights h i) := by
  have ht : ∀ o : Fin 1, (fun _ : Fin 1 => (1 : ℝ) / 2) o
      = trainOutput nnWitness (fun _ => 0) o := by
    intro o
    rw [trainOutput_closed]
    simp only [nnWitness, mul_zero, zero_mul, Finset.sum_const_zero]
    rw [sigmoid]
    norm_num [Real.exp_zero]
  exact ⟨ht, claim_C10_zero_residual_fixed_point nnWitness (fun _ => 0)
    (fun _ : Fin 1 => (1 : ℝ) / 2) ht⟩
